import Mathlib

/-!
Verification of the budget web app's core computations (`src/script.js`).

The embedding models the script's two pure computations:

* the monthly total of `updateTotals` (lines 130-146), and
* `calculateExpensesUntilPayday` (lines 157-237),

over a shallow embedding of JavaScript local `Date` values.  A JS `Date`
holds a millisecond timestamp; in this model a timestamp is a rational
number of milliseconds, a calendar date is its day number (days since
1970-01-01, proleptic Gregorian, local time with no DST shifts --- the
repository's spec declares timezone effects beyond local calendar dates a
non-goal).  `new Date(y, m, d)` normalizes out-of-range month and day
fields by rolling them over, which `mkDate` reproduces.
-/

namespace Budget

/-- Constant `MS_PER_DAY` from script.js line 4 (1000*60*60*24). -/
def MS_PER_DAY : ℚ := 86400000

/-- Constant `DAYS_IN_MONTH` from script.js line 2. -/
def DAYS_IN_MONTH : ℚ := 31

/-- Constant `DAYS_IN_WEEK` from script.js line 3. -/
def DAYS_IN_WEEK : ℚ := 7

/-- Proleptic Gregorian leap-year rule (part of the platform `Date` model). -/
def isLeap (y : ℤ) : Prop := y % 4 = 0 ∧ (y % 100 ≠ 0 ∨ y % 400 = 0)

instance (y : ℤ) : Decidable (isLeap y) := by unfold isLeap; infer_instance

/-- Length of civil month `m` (0 = January .. 11 = December, as in JS
`Date.getMonth`) in year `y`. -/
def daysInMonth (y m : ℤ) : ℤ :=
  if m = 1 then (if isLeap y then 29 else 28)
  else if m = 3 ∨ m = 5 ∨ m = 8 ∨ m = 10 then 30 else 31

/-- Cumulative day count before March-based month `mp`
(0 = March .. 11 = February). -/
def marchCum (mp : ℤ) : ℤ :=
  if mp ≤ 0 then 0 else if mp = 1 then 31 else if mp = 2 then 61
  else if mp = 3 then 92 else if mp = 4 then 122 else if mp = 5 then 153
  else if mp = 6 then 184 else if mp = 7 then 214 else if mp = 8 then 245
  else if mp = 9 then 275 else if mp = 10 then 306 else 337

/-- Length in days of the March-based year starting in March of the
(`n`+1)-th civil year of a 400-year era: it contains February of civil year
`n+1` of the era, so it is long exactly when that year is leap. -/
def yearLenM (n : ℕ) : ℕ :=
  if (n + 1) % 4 = 0 ∧ ((n + 1) % 100 ≠ 0 ∨ (n + 1) % 400 = 0) then 366 else 365

/-- Days from the start of a 400-year era to the start of its `n`-th
March-based year. -/
def gdays : ℕ → ℕ
  | 0 => 0
  | n + 1 => gdays n + yearLenM n

/-- The 400-year era holding March-based year `yAdj`. -/
def eraOfYear (yAdj : ℤ) : ℤ := yAdj / 400

/-- Index (0..399) of March-based year `yAdj` inside its era. -/
def yoeOfYear (yAdj : ℤ) : ℕ := (yAdj % 400).toNat

/-- Day number (days since 1970-01-01) of the date with civil year `y`,
month `m` (0-based, assumed in 0..11) and day-of-month `d`; `d` may lie
outside 1..(month length), in which case the date rolls over exactly as a
JS `Date` does. -/
def daysFromCivil (y m d : ℤ) : ℤ :=
  let yAdj := if m ≤ 1 then y - 1 else y
  let mp := if m ≤ 1 then m + 10 else m - 2
  eraOfYear yAdj * 146097 + (gdays (yoeOfYear yAdj) : ℤ) + (marchCum mp + d - 1) - 719468

/-- Search (bounded by `fuel`) for the March-based year index whose day
range contains day-of-era `doe`, starting the scan at index `cur`. -/
def findYoe (doe : ℕ) : ℕ → ℕ → ℕ
  | 0, cur => cur
  | fuel + 1, cur => if doe < gdays (cur + 1) then cur else findYoe doe fuel (cur + 1)

/-- March-based month index (0 = March .. 11 = February) of a March-based
day-of-year. -/
def monthPointFromDoy (doy : ℕ) : ℤ :=
  if doy ≤ 30 then 0 else if doy ≤ 60 then 1 else if doy ≤ 91 then 2
  else if doy ≤ 121 then 3 else if doy ≤ 152 then 4 else if doy ≤ 183 then 5
  else if doy ≤ 213 then 6 else if doy ≤ 244 then 7 else if doy ≤ 274 then 8
  else if doy ≤ 305 then 9 else if doy ≤ 336 then 10 else 11

/-- Decoding stage 1: the 400-year era containing day number `z`. -/
def eraOf (z : ℤ) : ℤ := (z + 719468) / 146097

/-- Decoding stage 2: the day-of-era of day number `z` (0..146096). -/
def doeOf (z : ℤ) : ℕ := (z + 719468 - eraOf z * 146097).toNat

/-- Decoding stage 3: the March-based year-of-era of day number `z`. -/
def yoeOf (z : ℤ) : ℕ := findYoe (doeOf z) 400 0

/-- Decoding stage 4: the March-based day-of-year of day number `z`. -/
def doyOf (z : ℤ) : ℕ := doeOf z - gdays (yoeOf z)

/-- Decode a day number into its civil (year, month, day-of-month) triple,
month 0-based; this is the model of JS `Date.getFullYear` / `getMonth` /
`getDate` for a local-midnight date. -/
def civilFromDays (z : ℤ) : ℤ × ℤ × ℤ :=
  let mp := monthPointFromDoy (doyOf z)
  (eraOf z * 400 + (yoeOf z : ℤ) + (if mp ≤ 9 then 0 else 1),
   if mp ≤ 9 then mp + 2 else mp - 10,
   (doyOf z : ℤ) - marchCum mp + 1)

/-- Day number built by `new Date(y, m, d)` at local midnight: JS first
normalizes the month field into 0..11 (rolling whole years), then rolls any
day-of-month overflow into the following months. -/
def mkDate (y m d : ℤ) : ℤ := daysFromCivil (y + m / 12) (m % 12) d

/-- Model of `Date.prototype.getFullYear` on a local-midnight date. -/
def getFullYear (z : ℤ) : ℤ := (civilFromDays z).1

/-- Model of `Date.prototype.getMonth` on a local-midnight date. -/
def getMonth (z : ℤ) : ℤ := (civilFromDays z).2.1

/-- Model of `Date.prototype.getDate` on a local-midnight date. -/
def getDate (z : ℤ) : ℤ := (civilFromDays z).2.2

/-- Effect of `expenseDate.setMonth(expenseDate.getMonth() + 1)`
(script.js line 229): JS re-forms the date from its current year, its
current month plus one, and its current day-of-month, normalizing overflow.
-/
def setMonthPlus1 (z : ℤ) : ℤ := mkDate (getFullYear z) (getMonth z + 1) (getDate z)

/-- Model of `Date.prototype.getDay` (weekday, 0 = Sunday) of a day
number: day 0 (1970-01-01) was a Thursday. -/
def weekdayOf (z : ℤ) : ℤ := (z + 4) % 7

/-- Model of `Date.prototype.getDay` of an arbitrary millisecond
timestamp: the weekday of the local calendar day containing it. -/
def weekdayOfTs (ts : ℚ) : ℤ := weekdayOf ⌊ts / MS_PER_DAY⌋

/-!
Expense records.  Modelled from the spec: the repository's `index.html`
(which holds the form controls) is not under `src/`, so the field surface
follows spec section 3.  Amount inputs yield a decimal or blank (the spec's
data model: "amount defaults to 0 if unparseable"); `none` models a
blank/unparseable value, for which `parseFloat(x?.value || 0)` and
`parseFloat(value) || 0` both produce 0.  Day selects yield one of their
option values (`dayOfMonth` 1..31, `dayOfWeek` 0..6) or blank (`none`).
-/

/-- Monthly expense record: name, amount field, day-of-month select. -/
structure MonthlyExpense where
  name : String
  amount : Option ℚ
  day : Option ℤ
deriving DecidableEq

/-- Weekly expense record: name, amount field, day-of-week select
(0 = Sunday .. 6 = Saturday). -/
structure WeeklyExpense where
  name : String
  amount : Option ℚ
  day : Option ℤ
deriving DecidableEq

/-- Daily expense record: name and amount field. -/
structure DailyExpense where
  name : String
  amount : Option ℚ
deriving DecidableEq

/-- The three ordered per-cadence sequences of expense records (the
`.expense-item` lists of the three containers, in DOM order). -/
structure ExpenseCollection where
  monthly : List MonthlyExpense
  weekly : List WeeklyExpense
  daily : List DailyExpense
deriving DecidableEq

/-- Names of the `-amount` form fields (the entries of `updateTotals`'s
`FormData` surviving the `name.endsWith("-amount")` filter, line 141). -/
inductive AmountField
  | monthlyAmount
  | weeklyAmount
  | dailyAmount
deriving DecidableEq

/-- The `multipliers` lookup table of `updateTotals` (script.js 134-138). -/
def multipliers : AmountField → ℚ
  | .monthlyAmount => 1
  | .weeklyAmount => DAYS_IN_MONTH / DAYS_IN_WEEK
  | .dailyAmount => DAYS_IN_MONTH

/-- The `-amount` entries of the form's `FormData`, in DOM order (all
monthly items, then weekly, then daily); the name/day/pay-day entries are
removed by the `endsWith("-amount")` filter and so are not modelled. -/
def formAmountEntries (c : ExpenseCollection) : List (AmountField × Option ℚ) :=
  c.monthly.map (fun e => (.monthlyAmount, e.amount))
    ++ c.weekly.map (fun e => (.weeklyAmount, e.amount))
    ++ c.daily.map (fun e => (.dailyAmount, e.amount))

/-- The `monthlyTotal` reduction of `updateTotals` (script.js 140-146):
`total + (parseFloat(value) || 0) * (multipliers[name] || 0)` over the
`-amount` entries.  This is the spec's `computeMonthlyTotal`. -/
def computeMonthlyTotal (c : ExpenseCollection) : ℚ :=
  (formAmountEntries c).foldl (fun total e => total + e.2.getD 0 * multipliers e.1) 0

/-- The payday-date ternary of `calculateExpensesUntilPayday`
(script.js 164-167), as a day number; `y`/`m`/`d` are today's
`getFullYear()`/`getMonth()`/`getDate()`.  This is the spec's
`resolvePaydayDate`. -/
def resolvePaydayDate (y m d payDay : ℤ) : ℤ :=
  if payDay ≤ d then mkDate y (m + 1) payDay else mkDate y m payDay

/-- The `daysUntilPayday` value of the daily reduction (script.js
178-183): `Math.ceil((payDayDate - today) / MS_PER_DAY)`, overridden to 1
when `currentDay === payDay && payDayDate.getMonth() === currentMonth`.
Today's timestamp is its day number times `MS_PER_DAY` plus the
time-of-day `t` in milliseconds. -/
def daysUntilPayday (y m d : ℤ) (t : ℚ) (payDay : ℤ) : ℤ :=
  let payDayDate := resolvePaydayDate y m d payDay
  let raw := ⌈((payDayDate : ℚ) * MS_PER_DAY - ((daysFromCivil y m d : ℚ) * MS_PER_DAY + t)) / MS_PER_DAY⌉
  if d = payDay ∧ getMonth payDayDate = m then 1 else raw

/-- The `dailyExpenses` reduction (script.js 174-186):
`total + amount * Math.max(0, daysUntilPayday)` over the daily records. -/
def dailyExpensesTotal (c : ExpenseCollection) (y m d : ℤ) (t : ℚ) (payDay : ℤ) : ℚ :=
  c.daily.foldl
    (fun total e => total + e.amount.getD 0 * ((max 0 (daysUntilPayday y m d t payDay) : ℤ) : ℚ)) 0

/-- The weekly `while` search (script.js 201-203): step `cur` forward one
day at a time until its weekday equals `target` and it is strictly after
`todayTs`.  The JS loop is unbounded; `fuel` bounds this model, and fuel 8
is proved sufficient below whenever `target` is an actual weekday 0..6 (for
any other target the JS loop would never terminate; such a target cannot
come out of the day select). -/
def findNextOccurrence (todayTs : ℚ) (target : ℤ) : ℕ → ℚ → Option ℚ
  | 0, _ => none
  | fuel + 1, cur =>
    if weekdayOfTs cur = target ∧ todayTs < cur then some cur
    else findNextOccurrence todayTs target fuel (cur + MS_PER_DAY)

/-- The weekly occurrence-counting `while` loop (script.js 206-210):
count how many 7-day steps from `cur` land strictly before `payTs`. -/
def countOccurrences (payTs : ℚ) (cur : ℚ) : ℕ :=
  if cur < payTs then countOccurrences payTs (cur + DAYS_IN_WEEK * MS_PER_DAY) + 1 else 0
termination_by (⌈(payTs - cur) / (DAYS_IN_WEEK * MS_PER_DAY)⌉).toNat
decreasing_by
  rename_i h
  have hstep : (0 : ℚ) < DAYS_IN_WEEK * MS_PER_DAY := by norm_num [DAYS_IN_WEEK, MS_PER_DAY]
  have h1 : (payTs - (cur + DAYS_IN_WEEK * MS_PER_DAY)) / (DAYS_IN_WEEK * MS_PER_DAY)
      = (payTs - cur) / (DAYS_IN_WEEK * MS_PER_DAY) - 1 := by
    field_simp
    ring
  have h2 : (1 : ℤ) ≤ ⌈(payTs - cur) / (DAYS_IN_WEEK * MS_PER_DAY)⌉ := by
    rw [Int.le_ceil_iff]
    have h3 : (0 : ℚ) < payTs - cur := by linarith
    have h4 : (0 : ℚ) < (payTs - cur) / (DAYS_IN_WEEK * MS_PER_DAY) := by positivity
    push_cast
    linarith
  rw [h1, Int.ceil_sub_one]
  omega

/-- Contribution of one weekly record (script.js 191-212): zero when the
day select is blank (`if (!dayOfWeek) return total`), otherwise
`amount * occurrences` from the first matching date strictly after today. -/
def weeklyContrib (todayTs payTs : ℚ) (e : WeeklyExpense) : ℚ :=
  match e.day with
  | none => 0
  | some target =>
    match findNextOccurrence todayTs target 8 todayTs with
    | none => 0
    | some first => e.amount.getD 0 * (countOccurrences payTs first : ℚ)

/-- The `weeklyExpenses` reduction (script.js 189-213). -/
def weeklyExpensesTotal (c : ExpenseCollection) (todayTs payTs : ℚ) : ℚ :=
  c.weekly.foldl (fun total e => total + weeklyContrib todayTs payTs e) 0

/-- Contribution of one monthly record (script.js 218-233): build
`new Date(currentYear, currentMonth, dayOfMonth)` (blank select defaults
to 1), roll it one month forward when `dayOfMonth <= currentDay`, and
include the amount exactly when the candidate is strictly before
`payDayDate`. -/
def monthlyContrib (y m d : ℤ) (payDayDate : ℤ) (e : MonthlyExpense) : ℚ :=
  let dayOfMonth := e.day.getD 1
  let expenseDate := mkDate y m dayOfMonth
  let adjusted := if dayOfMonth ≤ d then setMonthPlus1 expenseDate else expenseDate
  if adjusted < payDayDate then e.amount.getD 0 else 0

/-- The `monthlyExpenses` reduction (script.js 216-234). -/
def monthlyExpensesTotal (c : ExpenseCollection) (y m d payDayDate : ℤ) : ℚ :=
  c.monthly.foldl (fun total e => total + monthlyContrib y m d payDayDate e) 0

/-- Embedding of `calculateExpensesUntilPayday` (script.js 157-237), the
spec's `projectExpensesUntilPayday`.  `new Date()` is decomposed into
today's civil date `(y, m, d)` (its `getFullYear`/`getMonth`/`getDate`)
plus the clock time-of-day `t` in milliseconds, `0 ≤ t < MS_PER_DAY`. -/
def calculateExpensesUntilPayday (c : ExpenseCollection) (y m d : ℤ) (t : ℚ) (payDay : ℤ) : ℚ :=
  let payDayDate := resolvePaydayDate y m d payDay
  let todayTs := (daysFromCivil y m d : ℚ) * MS_PER_DAY + t
  let payTs := (payDayDate : ℚ) * MS_PER_DAY
  dailyExpensesTotal c y m d t payDay + weeklyExpensesTotal c todayTs payTs
    + monthlyExpensesTotal c y m d payDayDate

/-- Candidate date of the monthly rule stated in the spec's words (for
claim C6): day `dayOfMonth` of the current month, rolled to the next month
when `dayOfMonth <= today.day`, each built the way JS builds dates. -/
def specMonthlyCandidate (y m d dom : ℤ) : ℤ :=
  if dom ≤ d then mkDate y (m + 1) dom else mkDate y m dom

/-- Replace every blank/unparseable field by the value the code degrades
it to: amounts become 0, a blank monthly day select becomes 1, and weekly
records with a blank day select (which contribute nothing to the payday
projection) are dropped. -/
def sanitize (c : ExpenseCollection) : ExpenseCollection where
  monthly := c.monthly.map (fun e => ⟨e.name, some (e.amount.getD 0), some (e.day.getD 1)⟩)
  weekly := (c.weekly.filter (fun e => e.day.isSome)).map
    (fun e => ⟨e.name, some (e.amount.getD 0), e.day⟩)
  daily := c.daily.map (fun e => ⟨e.name, some (e.amount.getD 0)⟩)

/-- Replace blank/unparseable amounts by 0, keeping everything else. -/
def fillAmounts (c : ExpenseCollection) : ExpenseCollection where
  monthly := c.monthly.map (fun e => ⟨e.name, some (e.amount.getD 0), e.day⟩)
  weekly := c.weekly.map (fun e => ⟨e.name, some (e.amount.getD 0), e.day⟩)
  daily := c.daily.map (fun e => ⟨e.name, some (e.amount.getD 0)⟩)

end Budget

namespace Budget

/-- Every March-based year has at least 365 days. -/
lemma yearLenM_ge (n : ℕ) : 365 ≤ yearLenM n := by
  unfold yearLenM; split <;> omega

lemma gdays_succ (n : ℕ) : gdays (n + 1) = gdays n + yearLenM n := rfl

lemma gdays_mono : Monotone gdays := by
  apply monotone_nat_of_le_succ
  intro n
  rw [gdays_succ]
  omega

set_option maxRecDepth 4000 in
lemma gdays_400 : gdays 400 = 146097 := by decide

lemma findYoe_eq (doe n : ℕ) (hn2 : gdays n ≤ doe) (hn3 : doe < gdays (n + 1)) :
    ∀ (fuel start : ℕ), start ≤ n → n < start + fuel → gdays start ≤ doe →
    findYoe doe fuel start = n := by
  intro fuel
  induction fuel with
  | zero => intro start h1 h2 _; omega
  | succ f ih =>
    intro start h1 h2 h3
    rw [findYoe]
    split
    · rename_i hlt
      by_contra hne
      have hsn : start < n := by omega
      have hlt2 : gdays n < gdays (start + 1) := by omega
      have : n < start + 1 := by
        by_contra hge
        have : gdays (start + 1) ≤ gdays n := gdays_mono (by omega)
        omega
      omega
    · rename_i hge
      push_neg at hge
      have hne : start ≠ n := fun he => by subst he; omega
      exact ih (start + 1) (by omega) (by omega) hge

/-- Decoding recovers the stages of an encoded day number. -/
lemma decode_stages (era : ℤ) (n doy : ℕ) (hn : n ≤ 399) (hdoy : doy < yearLenM n) :
    eraOf (era * 146097 + (gdays n : ℤ) + (doy : ℤ) - 719468) = era ∧
    doeOf (era * 146097 + (gdays n : ℤ) + (doy : ℤ) - 719468) = gdays n + doy ∧
    yoeOf (era * 146097 + (gdays n : ℤ) + (doy : ℤ) - 719468) = n ∧
    doyOf (era * 146097 + (gdays n : ℤ) + (doy : ℤ) - 719468) = doy := by
  have hub : gdays n + doy < 146097 := by
    have h1 : gdays n + doy < gdays (n + 1) := by rw [gdays_succ]; omega
    have h2 : gdays (n + 1) ≤ gdays 400 := gdays_mono (by omega)
    rw [gdays_400] at h2; omega
  have hera : eraOf (era * 146097 + (gdays n : ℤ) + (doy : ℤ) - 719468) = era := by
    unfold eraOf; omega
  have hdoe : doeOf (era * 146097 + (gdays n : ℤ) + (doy : ℤ) - 719468) = gdays n + doy := by
    unfold doeOf; rw [hera]; omega
  have hyoe : yoeOf (era * 146097 + (gdays n : ℤ) + (doy : ℤ) - 719468) = n := by
    unfold yoeOf; rw [hdoe]
    apply findYoe_eq
    · omega
    · rw [gdays_succ]; omega
    · omega
    · omega
    · show gdays 0 ≤ gdays n + doy
      simp [gdays]
  have hdoy2 : doyOf (era * 146097 + (gdays n : ℤ) + (doy : ℤ) - 719468) = doy := by
    unfold doyOf; rw [hdoe, hyoe]; omega
  exact ⟨hera, hdoe, hyoe, hdoy2⟩

/-- Decoding an encoded valid March-based (era, year, month-point, day)
position gives back its civil components. -/
lemma decode_encode_march (era : ℤ) (n : ℕ) (mp d : ℤ) (doy : ℕ)
    (hn : n ≤ 399) (hmp0 : 0 ≤ mp) (hmp11 : mp ≤ 11) (hd1 : 1 ≤ d)
    (hdoy : (doy : ℤ) = marchCum mp + d - 1)
    (hlen : doy < yearLenM n)
    (hbound : mp = 11 ∨ marchCum mp + d ≤ marchCum (mp + 1)) :
    civilFromDays (era * 146097 + (gdays n : ℤ) + (doy : ℤ) - 719468)
      = (era * 400 + (n : ℤ) + (if mp ≤ 9 then 0 else 1),
         if mp ≤ 9 then mp + 2 else mp - 10, d) := by
  obtain ⟨h1, h2, h3, h4⟩ := decode_stages era n doy hn hlen
  simp only [civilFromDays]
  rw [h1, h3, h4]
  interval_cases mp <;>
    (norm_num [marchCum] at hdoy hbound ⊢
     unfold monthPointFromDoy
     repeat rw [if_neg (by omega)]
     try rw [if_pos (by omega)]
     norm_num
     omega)

end Budget

namespace Budget

/-- Reformulation of `decode_encode_march` matching the shape of
`daysFromCivil`. -/
lemma roundtrip_case (yAdj mp d : ℤ) (hmp0 : 0 ≤ mp) (hmp11 : mp ≤ 11) (hd1 : 1 ≤ d)
    (hmc : 0 ≤ marchCum mp)
    (hlen : (marchCum mp + d - 1).toNat < yearLenM (yoeOfYear yAdj))
    (hbound : mp = 11 ∨ marchCum mp + d ≤ marchCum (mp + 1)) :
    civilFromDays (eraOfYear yAdj * 146097 + (gdays (yoeOfYear yAdj) : ℤ)
        + (marchCum mp + d - 1) - 719468)
      = (eraOfYear yAdj * 400 + (yoeOfYear yAdj : ℤ) + (if mp ≤ 9 then 0 else 1),
         if mp ≤ 9 then mp + 2 else mp - 10, d) := by
  have hcast : ((marchCum mp + d - 1).toNat : ℤ) = marchCum mp + d - 1 := by omega
  have hn : yoeOfYear yAdj ≤ 399 := by unfold yoeOfYear; omega
  rw [show marchCum mp + d - 1 = ((marchCum mp + d - 1).toNat : ℤ) from hcast.symm]
  exact decode_encode_march _ _ mp d _ hn hmp0 hmp11 hd1 hcast hlen hbound

/-- Round trip: decoding the day number of a valid civil date gives back
its components.  Valid means month 0..11 and day between 1 and the month
length. -/
theorem civilFromDays_daysFromCivil (y m d : ℤ) (hm0 : 0 ≤ m) (hm : m < 12)
    (hd1 : 1 ≤ d) (hd : d ≤ daysInMonth y m) :
    civilFromDays (daysFromCivil y m d) = (y, m, d) := by
  interval_cases m
  · -- January
    refine (congrArg civilFromDays ?_).trans ((roundtrip_case (y-1) 10 d (by norm_num)
      (by norm_num) hd1 (by norm_num [marchCum]) ?_
      (Or.inr (by norm_num [daysInMonth] at hd; norm_num [marchCum]; omega))).trans ?_)
    · unfold daysFromCivil eraOfYear yoeOfYear
      norm_num [marchCum]
    · norm_num [daysInMonth] at hd
      have hy := yearLenM_ge (yoeOfYear (y-1))
      norm_num [marchCum]
      omega
    · simp only [Prod.mk.injEq]
      refine ⟨by unfold eraOfYear yoeOfYear; omega, by norm_num, trivial⟩
  · -- February
    have hn1 : ((yoeOfYear (y-1) : ℤ)) = (y-1) % 400 := by unfold yoeOfYear; omega
    refine (congrArg civilFromDays ?_).trans ((roundtrip_case (y-1) 11 d (by norm_num)
      (by norm_num) hd1 (by norm_num [marchCum]) ?_ (Or.inl rfl)).trans ?_)
    · unfold daysFromCivil eraOfYear yoeOfYear
      norm_num [marchCum]
    · norm_num [daysInMonth] at hd
      by_cases hly : isLeap y
      · rw [if_pos hly] at hd
        have h366 : yearLenM (yoeOfYear (y-1)) = 366 := by
          unfold yearLenM
          rw [if_pos ?_]
          unfold isLeap at hly
          constructor
          · omega
          · omega
        norm_num [marchCum]
        omega
      · rw [if_neg hly] at hd
        have hy := yearLenM_ge (yoeOfYear (y-1))
        norm_num [marchCum]
        omega
    · simp only [Prod.mk.injEq]
      refine ⟨by unfold eraOfYear yoeOfYear; omega, by norm_num, trivial⟩
  · -- month 2
    refine (congrArg civilFromDays ?_).trans ((roundtrip_case y 0 d (by norm_num)
      (by norm_num) hd1 (by norm_num [marchCum]) ?_
      (Or.inr (by norm_num [daysInMonth] at hd; norm_num [marchCum]; omega))).trans ?_)
    · unfold daysFromCivil eraOfYear yoeOfYear
      norm_num [marchCum]
    · norm_num [daysInMonth] at hd
      have hy := yearLenM_ge (yoeOfYear y)
      norm_num [marchCum]
      omega
    · simp only [Prod.mk.injEq]
      refine ⟨by unfold eraOfYear yoeOfYear; omega, by norm_num, trivial⟩
  · -- month 3
    refine (congrArg civilFromDays ?_).trans ((roundtrip_case y 1 d (by norm_num)
      (by norm_num) hd1 (by norm_num [marchCum]) ?_
      (Or.inr (by norm_num [daysInMonth] at hd; norm_num [marchCum]; omega))).trans ?_)
    · unfold daysFromCivil eraOfYear yoeOfYear
      norm_num [marchCum]
    · norm_num [daysInMonth] at hd
      have hy := yearLenM_ge (yoeOfYear y)
      norm_num [marchCum]
      omega
    · simp only [Prod.mk.injEq]
      refine ⟨by unfold eraOfYear yoeOfYear; omega, by norm_num, trivial⟩
  · -- month 4
    refine (congrArg civilFromDays ?_).trans ((roundtrip_case y 2 d (by norm_num)
      (by norm_num) hd1 (by norm_num [marchCum]) ?_
      (Or.inr (by norm_num [daysInMonth] at hd; norm_num [marchCum]; omega))).trans ?_)
    · unfold daysFromCivil eraOfYear yoeOfYear
      norm_num [marchCum]
    · norm_num [daysInMonth] at hd
      have hy := yearLenM_ge (yoeOfYear y)
      norm_num [marchCum]
      omega
    · simp only [Prod.mk.injEq]
      refine ⟨by unfold eraOfYear yoeOfYear; omega, by norm_num, trivial⟩
  · -- month 5
    refine (congrArg civilFromDays ?_).trans ((roundtrip_case y 3 d (by norm_num)
      (by norm_num) hd1 (by norm_num [marchCum]) ?_
      (Or.inr (by norm_num [daysInMonth] at hd; norm_num [marchCum]; omega))).trans ?_)
    · unfold daysFromCivil eraOfYear yoeOfYear
      norm_num [marchCum]
    · norm_num [daysInMonth] at hd
      have hy := yearLenM_ge (yoeOfYear y)
      norm_num [marchCum]
      omega
    · simp only [Prod.mk.injEq]
      refine ⟨by unfold eraOfYear yoeOfYear; omega, by norm_num, trivial⟩
  · -- month 6
    refine (congrArg civilFromDays ?_).trans ((roundtrip_case y 4 d (by norm_num)
      (by norm_num) hd1 (by norm_num [marchCum]) ?_
      (Or.inr (by norm_num [daysInMonth] at hd; norm_num [marchCum]; omega))).trans ?_)
    · unfold daysFromCivil eraOfYear yoeOfYear
      norm_num [marchCum]
    · norm_num [daysInMonth] at hd
      have hy := yearLenM_ge (yoeOfYear y)
      norm_num [marchCum]
      omega
    · simp only [Prod.mk.injEq]
      refine ⟨by unfold eraOfYear yoeOfYear; omega, by norm_num, trivial⟩
  · -- month 7
    refine (congrArg civilFromDays ?_).trans ((roundtrip_case y 5 d (by norm_num)
      (by norm_num) hd1 (by norm_num [marchCum]) ?_
      (Or.inr (by norm_num [daysInMonth] at hd; norm_num [marchCum]; omega))).trans ?_)
    · unfold daysFromCivil eraOfYear yoeOfYear
      norm_num [marchCum]
    · norm_num [daysInMonth] at hd
      have hy := yearLenM_ge (yoeOfYear y)
      norm_num [marchCum]
      omega
    · simp only [Prod.mk.injEq]
      refine ⟨by unfold eraOfYear yoeOfYear; omega, by norm_num, trivial⟩
  · -- month 8
    refine (congrArg civilFromDays ?_).trans ((roundtrip_case y 6 d (by norm_num)
      (by norm_num) hd1 (by norm_num [marchCum]) ?_
      (Or.inr (by norm_num [daysInMonth] at hd; norm_num [marchCum]; omega))).trans ?_)
    · unfold daysFromCivil eraOfYear yoeOfYear
      norm_num [marchCum]
    · norm_num [daysInMonth] at hd
      have hy := yearLenM_ge (yoeOfYear y)
      norm_num [marchCum]
      omega
    · simp only [Prod.mk.injEq]
      refine ⟨by unfold eraOfYear yoeOfYear; omega, by norm_num, trivial⟩
  · -- month 9
    refine (congrArg civilFromDays ?_).trans ((roundtrip_case y 7 d (by norm_num)
      (by norm_num) hd1 (by norm_num [marchCum]) ?_
      (Or.inr (by norm_num [daysInMonth] at hd; norm_num [marchCum]; omega))).trans ?_)
    · unfold daysFromCivil eraOfYear yoeOfYear
      norm_num [marchCum]
    · norm_num [daysInMonth] at hd
      have hy := yearLenM_ge (yoeOfYear y)
      norm_num [marchCum]
      omega
    · simp only [Prod.mk.injEq]
      refine ⟨by unfold eraOfYear yoeOfYear; omega, by norm_num, trivial⟩
  · -- month 10
    refine (congrArg civilFromDays ?_).trans ((roundtrip_case y 8 d (by norm_num)
      (by norm_num) hd1 (by norm_num [marchCum]) ?_
      (Or.inr (by norm_num [daysInMonth] at hd; norm_num [marchCum]; omega))).trans ?_)
    · unfold daysFromCivil eraOfYear yoeOfYear
      norm_num [marchCum]
    · norm_num [daysInMonth] at hd
      have hy := yearLenM_ge (yoeOfYear y)
      norm_num [marchCum]
      omega
    · simp only [Prod.mk.injEq]
      refine ⟨by unfold eraOfYear yoeOfYear; omega, by norm_num, trivial⟩
  · -- month 11
    refine (congrArg civilFromDays ?_).trans ((roundtrip_case y 9 d (by norm_num)
      (by norm_num) hd1 (by norm_num [marchCum]) ?_
      (Or.inr (by norm_num [daysInMonth] at hd; norm_num [marchCum]; omega))).trans ?_)
    · unfold daysFromCivil eraOfYear yoeOfYear
      norm_num [marchCum]
    · norm_num [daysInMonth] at hd
      have hy := yearLenM_ge (yoeOfYear y)
      norm_num [marchCum]
      omega
    · simp only [Prod.mk.injEq]
      refine ⟨by unfold eraOfYear yoeOfYear; omega, by norm_num, trivial⟩

end Budget

namespace Budget

lemma MS_PER_DAY_pos : (0 : ℚ) < MS_PER_DAY := by norm_num [MS_PER_DAY]

/-- For months already in range, `new Date(y, m, d)` does no month
normalization. -/
lemma mkDate_eq (y m d : ℤ) (hm0 : 0 ≤ m) (hm : m < 12) :
    mkDate y m d = daysFromCivil y m d := by
  unfold mkDate
  rw [show y + m / 12 = y by omega, show m % 12 = m by omega]

/-- On an in-range date, `setMonth(getMonth() + 1)` is `new Date` of the
same year and day with the month field one higher. -/
lemma setMonthPlus1_mkDate (y m dom : ℤ) (hm0 : 0 ≤ m) (hm : m < 12)
    (h1 : 1 ≤ dom) (h2 : dom ≤ daysInMonth y m) :
    setMonthPlus1 (mkDate y m dom) = mkDate y (m + 1) dom := by
  unfold setMonthPlus1 getFullYear getMonth getDate
  rw [mkDate_eq y m dom hm0 hm, civilFromDays_daysFromCivil y m dom hm0 hm h1 h2]

/-- The ceiling in the daily rule only sees whole days: for any
time-of-day `t`, `ceil((P*MSD - (D*MSD + t)) / MSD) = P - D`. -/
lemma ceil_day_diff (P D : ℤ) (t : ℚ) (h0 : 0 ≤ t) (h1 : t < MS_PER_DAY) :
    ⌈((P : ℚ) * MS_PER_DAY - ((D : ℚ) * MS_PER_DAY + t)) / MS_PER_DAY⌉ = P - D := by
  have hms := MS_PER_DAY_pos
  have hrw : ((P : ℚ) * MS_PER_DAY - ((D : ℚ) * MS_PER_DAY + t)) / MS_PER_DAY
      = ((P - D : ℤ) : ℚ) - t / MS_PER_DAY := by
    push_cast
    field_simp
    ring
  rw [hrw, Int.ceil_eq_iff]
  constructor
  · have : t / MS_PER_DAY < 1 := (div_lt_one hms).mpr h1
    push_cast
    linarith
  · have : 0 ≤ t / MS_PER_DAY := div_nonneg h0 (le_of_lt hms)
    linarith

/-- Comparing a mid-day timestamp with a midnight timestamp compares the
calendar days. -/
lemma ts_lt_day (A B : ℤ) (t : ℚ) (h0 : 0 ≤ t) (h1 : t < MS_PER_DAY) :
    (A : ℚ) * MS_PER_DAY + t < (B : ℚ) * MS_PER_DAY ↔ A < B := by
  have hms := MS_PER_DAY_pos
  constructor
  · intro h
    by_contra hc
    push_neg at hc
    have : (B : ℚ) * MS_PER_DAY ≤ (A : ℚ) * MS_PER_DAY := by
      have : (B : ℚ) ≤ (A : ℚ) := by exact_mod_cast hc
      nlinarith
    linarith
  · intro h
    have hAB : (A : ℚ) + 1 ≤ (B : ℚ) := by exact_mod_cast h
    nlinarith

/-- The local day number of a timestamp advanced by `j` whole days. -/
lemma floor_ts_add (ts : ℚ) (j : ℕ) :
    ⌊(ts + (j : ℚ) * MS_PER_DAY) / MS_PER_DAY⌋ = ⌊ts / MS_PER_DAY⌋ + j := by
  have hms := MS_PER_DAY_pos
  have hrw : (ts + (j : ℚ) * MS_PER_DAY) / MS_PER_DAY = ts / MS_PER_DAY + (j : ℚ) := by
    field_simp
  rw [hrw]
  exact_mod_cast Int.floor_add_int (ts / MS_PER_DAY) j

lemma weekdayOfTs_add (ts : ℚ) (j : ℕ) :
    weekdayOfTs (ts + (j : ℚ) * MS_PER_DAY) = (⌊ts / MS_PER_DAY⌋ + j + 4) % 7 := by
  unfold weekdayOfTs weekdayOf
  rw [floor_ts_add]

/-- A timestamp of the form day-number times `MS_PER_DAY` plus an in-range
time-of-day lies on that local day. -/
lemma floor_day_ts (D : ℤ) (t : ℚ) (h0 : 0 ≤ t) (h1 : t < MS_PER_DAY) :
    ⌊((D : ℚ) * MS_PER_DAY + t) / MS_PER_DAY⌋ = D := by
  have hms := MS_PER_DAY_pos
  have hrw : ((D : ℚ) * MS_PER_DAY + t) / MS_PER_DAY = t / MS_PER_DAY + (D : ℚ) := by
    field_simp
    ring
  rw [hrw]
  have hz : ⌊t / MS_PER_DAY⌋ = 0 := by
    rw [Int.floor_eq_zero_iff]
    constructor
    · exact div_nonneg h0 (le_of_lt hms)
    · exact (div_lt_one hms).mpr h1
  calc ⌊t / MS_PER_DAY + (D : ℚ)⌋ = ⌊t / MS_PER_DAY⌋ + D := Int.floor_add_int _ _
    _ = D := by rw [hz]; ring

/-- The weekly search returns the `k`-th day after its start when `k` is
the least positive index whose weekday matches. -/
lemma findNextOccurrence_eq (ts : ℚ) (target : ℤ) (k : ℕ) (hk1 : 1 ≤ k)
    (hmatch : weekdayOfTs (ts + (k : ℚ) * MS_PER_DAY) = target)
    (hmin : ∀ j : ℕ, 1 ≤ j → j < k → weekdayOfTs (ts + (j : ℚ) * MS_PER_DAY) ≠ target) :
    ∀ (fuel i : ℕ), i ≤ k → k < i + fuel →
      findNextOccurrence ts target fuel (ts + (i : ℚ) * MS_PER_DAY)
        = some (ts + (k : ℚ) * MS_PER_DAY) := by
  intro fuel
  induction fuel with
  | zero => intro i h1 h2; omega
  | succ f ih =>
    intro i h1 h2
    rw [findNextOccurrence]
    rcases eq_or_lt_of_le h1 with he | hlt
    · subst he
      rw [if_pos]
      refine ⟨hmatch, ?_⟩
      have hms := MS_PER_DAY_pos
      have : (0 : ℚ) < (i : ℚ) * MS_PER_DAY := by
        have hi : (1 : ℚ) ≤ (i : ℚ) := by exact_mod_cast hk1
        nlinarith
      linarith
    · rw [if_neg]
      · have hstep : ts + (i : ℚ) * MS_PER_DAY + MS_PER_DAY
            = ts + ((i + 1 : ℕ) : ℚ) * MS_PER_DAY := by
          push_cast
          ring
        rw [hstep]
        exact ih (i + 1) (by omega) (by omega)
      · rintro ⟨hw, hgt⟩
        rcases Nat.eq_zero_or_pos i with hi0 | hi1
        · subst hi0
          norm_num at hgt
        · exact hmin i hi1 hlt hw

/-- When the target is not an actual weekday the search never succeeds
(the JS loop would run forever). -/
lemma findNextOccurrence_none (ts : ℚ) (target : ℤ) (h : target < 0 ∨ 7 ≤ target) :
    ∀ (fuel : ℕ) (cur : ℚ), findNextOccurrence ts target fuel cur = none := by
  intro fuel
  induction fuel with
  | zero => intro cur; rfl
  | succ f ih =>
    intro cur
    rw [findNextOccurrence, if_neg, ih]
    rintro ⟨hw, -⟩
    unfold weekdayOfTs weekdayOf at hw
    have h1 : 0 ≤ (⌊cur / MS_PER_DAY⌋ + 4) % 7 := Int.emod_nonneg _ (by norm_num)
    have h2 : (⌊cur / MS_PER_DAY⌋ + 4) % 7 < 7 := Int.emod_lt_of_pos _ (by norm_num)
    omega

/-- For a genuine weekday target there is a unique first matching day at
most 7 days ahead. -/
lemma exists_first_weekday (ts : ℚ) (target : ℤ) (h0 : 0 ≤ target) (h7 : target < 7) :
    ∃ k : ℕ, 1 ≤ k ∧ k ≤ 7 ∧ weekdayOfTs (ts + (k : ℚ) * MS_PER_DAY) = target ∧
      ∀ j : ℕ, 1 ≤ j → j < k → weekdayOfTs (ts + (j : ℚ) * MS_PER_DAY) ≠ target := by
  set F := ⌊ts / MS_PER_DAY⌋ with hF
  refine ⟨((target - (F + 4) - 1) % 7).toNat + 1, by omega, ?_, ?_, ?_⟩
  · have h1 : 0 ≤ (target - (F + 4) - 1) % 7 := Int.emod_nonneg _ (by norm_num)
    have h2 : (target - (F + 4) - 1) % 7 < 7 := Int.emod_lt_of_pos _ (by norm_num)
    omega
  · rw [weekdayOfTs_add, ← hF]
    omega
  · intro j hj1 hjk
    rw [weekdayOfTs_add, ← hF]
    intro hc
    omega

end Budget

namespace Budget

lemma countOccurrences_unfold (payTs cur : ℚ) :
    countOccurrences payTs cur
      = if cur < payTs then countOccurrences payTs (cur + DAYS_IN_WEEK * MS_PER_DAY) + 1 else 0 := by
  rw [countOccurrences]

lemma countOccurrences_char_aux (payTs : ℚ) :
    ∀ (N : ℕ) (cur : ℚ), payTs ≤ cur + (N : ℚ) * (DAYS_IN_WEEK * MS_PER_DAY) →
      ∀ j : ℕ, (j < countOccurrences payTs cur
        ↔ cur + (j : ℚ) * (DAYS_IN_WEEK * MS_PER_DAY) < payTs) := by
  have hstep : (0 : ℚ) < DAYS_IN_WEEK * MS_PER_DAY := by norm_num [DAYS_IN_WEEK, MS_PER_DAY]
  intro N
  induction N with
  | zero =>
    intro cur hN j
    rw [countOccurrences_unfold, if_neg (by push_cast at hN; linarith)]
    constructor
    · omega
    · intro hc
      exfalso
      have hj : (0 : ℚ) ≤ (j : ℚ) * (DAYS_IN_WEEK * MS_PER_DAY) := by positivity
      push_cast at hN
      linarith
  | succ N ih =>
    intro cur hN j
    by_cases hcur : cur < payTs
    · rw [countOccurrences_unfold, if_pos hcur]
      have hN' : payTs ≤ (cur + DAYS_IN_WEEK * MS_PER_DAY) + (N : ℚ) * (DAYS_IN_WEEK * MS_PER_DAY) := by
        push_cast at hN
        linarith [hN]
      cases j with
      | zero =>
        simp only [Nat.cast_zero, zero_mul, add_zero]
        constructor
        · intro _; exact hcur
        · intro _; omega
      | succ j =>
        have hiter := ih (cur + DAYS_IN_WEEK * MS_PER_DAY) hN' j
        constructor
        · intro hlt
          have : j < countOccurrences payTs (cur + DAYS_IN_WEEK * MS_PER_DAY) := by omega
          have := hiter.mp this
          push_cast
          push_cast at this
          linarith
        · intro hc
          have : cur + DAYS_IN_WEEK * MS_PER_DAY + (j : ℚ) * (DAYS_IN_WEEK * MS_PER_DAY) < payTs := by
            push_cast at hc
            linarith
          have := hiter.mpr this
          omega
    · rw [countOccurrences_unfold, if_neg hcur]
      push_neg at hcur
      constructor
      · omega
      · intro hc
        exfalso
        have hj : (0 : ℚ) ≤ (j : ℚ) * (DAYS_IN_WEEK * MS_PER_DAY) := by positivity
        linarith

/-- Characterization of the weekly counting loop: it counts exactly the
7-day steps landing strictly before `payTs`. -/
lemma countOccurrences_char (payTs cur : ℚ) (j : ℕ) :
    j < countOccurrences payTs cur
      ↔ cur + (j : ℚ) * (DAYS_IN_WEEK * MS_PER_DAY) < payTs := by
  have hstep : (0 : ℚ) < DAYS_IN_WEEK * MS_PER_DAY := by norm_num [DAYS_IN_WEEK, MS_PER_DAY]
  obtain ⟨N, hN⟩ := exists_nat_gt ((payTs - cur) / (DAYS_IN_WEEK * MS_PER_DAY))
  refine countOccurrences_char_aux payTs N cur ?_ j
  have := (div_lt_iff₀ hstep).mp hN
  linarith

/-- Day-level characterization: starting from day `F` at time-of-day `t`,
the loop counts exactly the indices `j` with `F + 7*j` strictly before
payday `P`. -/
lemma countOccurrences_day_iff (P F : ℤ) (t : ℚ) (h0 : 0 ≤ t) (h1 : t < MS_PER_DAY) (j : ℕ) :
    j < countOccurrences ((P : ℚ) * MS_PER_DAY) ((F : ℚ) * MS_PER_DAY + t)
      ↔ F + 7 * (j : ℤ) < P := by
  rw [countOccurrences_char]
  have hrw : (F : ℚ) * MS_PER_DAY + t + (j : ℚ) * (DAYS_IN_WEEK * MS_PER_DAY)
      = ((F + 7 * (j : ℤ) : ℤ) : ℚ) * MS_PER_DAY + t := by
    push_cast [DAYS_IN_WEEK]
    ring
  rw [hrw, ts_lt_day _ _ t h0 h1]

lemma count_eq_of_lt_iff (c1 c2 : ℕ) (h : ∀ j : ℕ, j < c1 ↔ j < c2) : c1 = c2 := by
  have h1 := h c1
  have h2 := h c2
  omega

lemma foldl_add_map (f : α → ℚ) (l : List α) :
    ∀ init : ℚ, l.foldl (fun total e => total + f e) init = init + (l.map f).sum := by
  induction l with
  | nil => intro init; simp
  | cons a l ih =>
    intro init
    simp only [List.foldl_cons, List.map_cons, List.sum_cons, ih]
    ring

end Budget

namespace Budget

/-- Shared: the monthly total equals the three cadence sums with their
factors. -/
lemma computeMonthlyTotal_eq_sums (c : ExpenseCollection) :
    computeMonthlyTotal c
      = (c.monthly.map (fun e => e.amount.getD 0 * 1)).sum
        + (c.weekly.map (fun e => e.amount.getD 0 * (31 / 7))).sum
        + (c.daily.map (fun e => e.amount.getD 0 * 31)).sum := by
  unfold computeMonthlyTotal formAmountEntries
  rw [foldl_add_map]
  simp only [List.map_append, List.sum_append, List.map_map, Function.comp_def,
    multipliers, DAYS_IN_MONTH, DAYS_IN_WEEK, zero_add]

/-- C4: for every ExpenseCollection, `computeMonthlyTotal` returns the sum
over all records of amount times the cadence factor --- 1 for monthly,
31/7 for weekly, 31 for daily --- with an unparseable amount counting
as 0. -/
theorem C4_monthly_total_formula (c : ExpenseCollection) :
    computeMonthlyTotal c
      = (c.monthly.map (fun e => e.amount.getD 0 * 1)).sum
        + (c.weekly.map (fun e => e.amount.getD 0 * (31 / 7))).sum
        + (c.daily.map (fun e => e.amount.getD 0 * 31)).sum :=
  computeMonthlyTotal_eq_sums c

/-- C7: `computeMonthlyTotal` is invariant under permuting the records
inside any of the three cadence sequences. -/
theorem C7_monthly_total_perm (c c' : ExpenseCollection)
    (hm : c.monthly.Perm c'.monthly) (hw : c.weekly.Perm c'.weekly)
    (hd : c.daily.Perm c'.daily) :
    computeMonthlyTotal c = computeMonthlyTotal c' := by
  rw [computeMonthlyTotal_eq_sums, computeMonthlyTotal_eq_sums]
  rw [(hm.map _).sum_eq, (hw.map _).sum_eq, (hd.map _).sum_eq]

/-- Witness for C7 at a concrete pair of collections differing by a swap
in the daily sequence. -/
theorem C7_monthly_total_perm_witness :
    ([⟨"a", some 3⟩, ⟨"b", some 5⟩] : List DailyExpense).Perm [⟨"b", some 5⟩, ⟨"a", some 3⟩]
    ∧ computeMonthlyTotal ⟨[], [], [⟨"a", some 3⟩, ⟨"b", some 5⟩]⟩
      = computeMonthlyTotal ⟨[], [], [⟨"b", some 5⟩, ⟨"a", some 3⟩]⟩ :=
  ⟨List.Perm.swap _ _ _,
   C7_monthly_total_perm ⟨[], [], [⟨"a", some 3⟩, ⟨"b", some 5⟩]⟩
     ⟨[], [], [⟨"b", some 5⟩, ⟨"a", some 3⟩]⟩ (List.Perm.refl _) (List.Perm.refl _)
     (List.Perm.swap _ _ _)⟩

end Budget

namespace Budget

set_option maxRecDepth 8000 in
/-- Counterexample to C2 as stated: on 2024-02-10 with payday-of-month 31,
`payDayOfMonth > today.day` holds, yet the resolved payday is not day 31
of the current month (February): JS date normalization yields March 2. -/
theorem C2_counterexample :
    ¬ (civilFromDays (resolvePaydayDate 2024 1 10 31) = (2024, 1, 31))
    ∧ civilFromDays (resolvePaydayDate 2024 1 10 31) = (2024, 2, 2) := by
  constructor
  · decide
  · decide

/-- C2 (amended): the resolved payday is day `payDayOfMonth` of the
current month when `payDayOfMonth > today.day`, and of the following
month when `payDayOfMonth <= today.day`, in each case provided
`payDayOfMonth` does not exceed the length of that month (otherwise JS
date normalization rolls the excess into the subsequent month). -/
theorem C2_resolvePaydayDate_amended (y m d payDay : ℤ)
    (hm0 : 0 ≤ m) (hm : m < 12) (hp1 : 1 ≤ payDay) :
    (d < payDay → payDay ≤ daysInMonth y m →
      civilFromDays (resolvePaydayDate y m d payDay) = (y, m, payDay))
    ∧ (payDay ≤ d →
        (m < 11 → payDay ≤ daysInMonth y (m + 1) →
          civilFromDays (resolvePaydayDate y m d payDay) = (y, m + 1, payDay))
        ∧ (m = 11 → payDay ≤ daysInMonth (y + 1) 0 →
          civilFromDays (resolvePaydayDate y m d payDay) = (y + 1, 0, payDay))) := by
  refine ⟨?_, ?_⟩
  · intro hlt hlen
    unfold resolvePaydayDate
    rw [if_neg (by omega), mkDate_eq y m payDay hm0 hm]
    exact civilFromDays_daysFromCivil y m payDay hm0 hm hp1 hlen
  · intro hle
    refine ⟨?_, ?_⟩
    · intro hm11 hlen
      unfold resolvePaydayDate
      rw [if_pos hle, mkDate_eq y (m + 1) payDay (by omega) (by omega)]
      exact civilFromDays_daysFromCivil y (m + 1) payDay (by omega) (by omega) hp1 hlen
    · intro hm11 hlen
      subst hm11
      unfold resolvePaydayDate
      rw [if_pos hle]
      unfold mkDate
      rw [show y + (11 + 1) / 12 = y + 1 by norm_num, show ((11 : ℤ) + 1) % 12 = 0 by norm_num]
      exact civilFromDays_daysFromCivil (y + 1) 0 payDay (by norm_num) (by norm_num) hp1 hlen

set_option maxRecDepth 8000 in
/-- Witness for the amended C2 on 2024-01-10 with payday 25. -/
theorem C2_resolvePaydayDate_amended_witness :
    ((0 : ℤ) ≤ 0 ∧ (0 : ℤ) < 12 ∧ (1 : ℤ) ≤ 25)
    ∧ (((10 : ℤ) < 25 → (25 : ℤ) ≤ daysInMonth 2024 0 →
        civilFromDays (resolvePaydayDate 2024 0 10 25) = (2024, 0, 25))
      ∧ ((25 : ℤ) ≤ 10 →
          ((0 : ℤ) < 11 → (25 : ℤ) ≤ daysInMonth 2024 (0 + 1) →
            civilFromDays (resolvePaydayDate 2024 0 10 25) = (2024, 0 + 1, 25))
          ∧ ((0 : ℤ) = 11 → (25 : ℤ) ≤ daysInMonth (2024 + 1) 0 →
            civilFromDays (resolvePaydayDate 2024 0 10 25) = (2024 + 1, 0, 25)))) :=
  ⟨⟨le_refl 0, by norm_num, by norm_num⟩,
   C2_resolvePaydayDate_amended 2024 0 10 25 (by norm_num) (by norm_num) (by norm_num)⟩

set_option maxRecDepth 8000 in
/-- C1 at its failing input: on 2024-01-25 (local midnight) with
payday-of-month 25, a single daily expense of amount 1 contributes 31, not
1: the payday has rolled to 2024-02-25, and the same-day override guard
`payDayDate.getMonth() === currentMonth` is false (1 vs 0), so
`daysUntilPayday` stays at the full 31-day gap. -/
theorem C1_same_day_daily_eval :
    calculateExpensesUntilPayday ⟨[], [], [⟨"coffee", some 1⟩]⟩ 2024 0 25 0 25 = 31
    ∧ getMonth (resolvePaydayDate 2024 0 25 25) = 1 := by
  have hD : daysFromCivil 2024 0 25 = 19747 := by decide
  have hP : resolvePaydayDate 2024 0 25 25 = 19778 := by decide
  have hM : getMonth (resolvePaydayDate 2024 0 25 25) = 1 := by decide
  refine ⟨?_, hM⟩
  have hdays : daysUntilPayday 2024 0 25 0 25 = 31 := by
    unfold daysUntilPayday
    rw [if_neg (by rw [hM]; simp)]
    rw [hP, hD]
    have := ceil_day_diff 19778 19747 0 (le_refl 0) MS_PER_DAY_pos
    rw [this]
    norm_num
  unfold calculateExpensesUntilPayday dailyExpensesTotal weeklyExpensesTotal monthlyExpensesTotal
  simp only [List.foldl_nil, List.foldl_cons]
  rw [hdays]
  norm_num

end Budget

namespace Budget

/-- The weekday of a mid-day timestamp is the weekday of its day number. -/
lemma weekdayOfTs_day (A : ℤ) (t : ℚ) (h0 : 0 ≤ t) (h1 : t < MS_PER_DAY) :
    weekdayOfTs ((A : ℚ) * MS_PER_DAY + t) = weekdayOf A := by
  unfold weekdayOfTs
  rw [floor_day_ts A t h0 h1]

set_option maxRecDepth 8000 in
/-- C3: the worked example.  With today = 2024-01-10 (a Wednesday) and
payday-of-month 25, the resolved payday is 2024-01-25; a daily expense of
2 contributes 30, a weekly expense of 10 on Wednesday contributes 20, a
monthly expense of 50 with day-of-month 20 contributes 50, and the total
projection is exactly 100 --- at any clock time-of-day `t`. -/
theorem C3_worked_example (t : ℚ) (h0 : 0 ≤ t) (h1 : t < MS_PER_DAY) :
    resolvePaydayDate 2024 0 10 25 = daysFromCivil 2024 0 25
    ∧ weekdayOf (daysFromCivil 2024 0 10) = 3
    ∧ dailyExpensesTotal ⟨[], [], [⟨"food", some 2⟩]⟩ 2024 0 10 t 25 = 30
    ∧ weeklyExpensesTotal ⟨[], [⟨"gym", some 10, some 3⟩], []⟩
        ((daysFromCivil 2024 0 10 : ℚ) * MS_PER_DAY + t)
        ((resolvePaydayDate 2024 0 10 25 : ℚ) * MS_PER_DAY) = 20
    ∧ monthlyExpensesTotal ⟨[⟨"rent", some 50, some 20⟩], [], []⟩ 2024 0 10
        (resolvePaydayDate 2024 0 10 25) = 50
    ∧ calculateExpensesUntilPayday
        ⟨[⟨"rent", some 50, some 20⟩], [⟨"gym", some 10, some 3⟩], [⟨"food", some 2⟩]⟩
        2024 0 10 t 25 = 100 := by
  have hD : daysFromCivil 2024 0 10 = 19732 := by decide
  have hP : resolvePaydayDate 2024 0 10 25 = 19747 := by decide
  have hdays : daysUntilPayday 2024 0 10 t 25 = 15 := by
    unfold daysUntilPayday
    rw [if_neg (by norm_num)]
    rw [hP, hD]
    have := ceil_day_diff 19747 19732 t h0 h1
    rw [this]
    norm_num
  have hdaily : dailyExpensesTotal ⟨[], [], [⟨"food", some 2⟩]⟩ 2024 0 10 t 25 = 30 := by
    unfold dailyExpensesTotal
    simp only [List.foldl_cons, List.foldl_nil]
    rw [hdays]
    norm_num
  -- weekly: first matching Wednesday is 2024-01-17 (day 19739, k = 7)
  have hfind : findNextOccurrence ((19732 : ℚ) * MS_PER_DAY + t) 3 8
      ((19732 : ℚ) * MS_PER_DAY + t) = some ((19732 : ℚ) * MS_PER_DAY + t + (7 : ℚ) * MS_PER_DAY) := by
    have hstep : ∀ j : ℕ, ((19732 : ℚ) * MS_PER_DAY + t) + (j : ℚ) * MS_PER_DAY
        = (((19732 + j : ℤ) : ℚ) * MS_PER_DAY + t) := by
      intro j
      push_cast
      ring
    have := findNextOccurrence_eq ((19732 : ℚ) * MS_PER_DAY + t) 3 7 (by norm_num) ?_ ?_ 8 0
      (by norm_num) (by norm_num)
    · rw [show ((19732 : ℚ) * MS_PER_DAY + t + ((0 : ℕ) : ℚ) * MS_PER_DAY)
          = ((19732 : ℚ) * MS_PER_DAY + t) by push_cast; ring] at this
      rw [this]
      norm_num
    · rw [hstep 7, weekdayOfTs_day _ t h0 h1]
      decide
    · intro j hj1 hj7
      rw [hstep j, weekdayOfTs_day _ t h0 h1]
      interval_cases j <;> decide
  have hcnt : countOccurrences ((19747 : ℚ) * MS_PER_DAY)
      ((19732 : ℚ) * MS_PER_DAY + t + (7 : ℚ) * MS_PER_DAY) = 2 := by
    have hform : (19732 : ℚ) * MS_PER_DAY + t + (7 : ℚ) * MS_PER_DAY
        = ((19739 : ℤ) : ℚ) * MS_PER_DAY + t := by
      push_cast
      ring
    rw [hform]
    have hchar : ∀ j : ℕ,
        j < countOccurrences (((19747 : ℤ) : ℚ) * MS_PER_DAY) (((19739 : ℤ) : ℚ) * MS_PER_DAY + t)
          ↔ (19739 : ℤ) + 7 * (j : ℤ) < 19747 := fun j => countOccurrences_day_iff 19747 19739 t h0 h1 j
    have ha := hchar 1
    have hb := hchar 2
    norm_num at ha hb ⊢
    omega
  have hweek : weeklyExpensesTotal ⟨[], [⟨"gym", some 10, some 3⟩], []⟩
      ((daysFromCivil 2024 0 10 : ℚ) * MS_PER_DAY + t)
      ((resolvePaydayDate 2024 0 10 25 : ℚ) * MS_PER_DAY) = 20 := by
    rw [hD, hP]
    unfold weeklyExpensesTotal
    simp only [List.foldl_cons, List.foldl_nil]
    unfold weeklyContrib
    rw [show ((19732 : ℤ) : ℚ) = (19732 : ℚ) by norm_num,
      show ((19747 : ℤ) : ℚ) = (19747 : ℚ) by norm_num]
    dsimp only
    rw [hfind]
    dsimp only
    rw [hcnt]
    norm_num
  have hmon : monthlyExpensesTotal ⟨[⟨"rent", some 50, some 20⟩], [], []⟩ 2024 0 10
      (resolvePaydayDate 2024 0 10 25) = 50 := by
    rw [hP]
    unfold monthlyExpensesTotal
    simp only [List.foldl_cons, List.foldl_nil]
    unfold monthlyContrib
    norm_num
    decide
  refine ⟨by decide, by decide, hdaily, hweek, hmon, ?_⟩
  unfold calculateExpensesUntilPayday
  have hd2 : dailyExpensesTotal
      ⟨[⟨"rent", some 50, some 20⟩], [⟨"gym", some 10, some 3⟩], [⟨"food", some 2⟩]⟩
      2024 0 10 t 25 = 30 := by
    unfold dailyExpensesTotal
    simp only [List.foldl_cons, List.foldl_nil]
    rw [hdays]
    norm_num
  have hw2 : weeklyExpensesTotal
      ⟨[⟨"rent", some 50, some 20⟩], [⟨"gym", some 10, some 3⟩], [⟨"food", some 2⟩]⟩
      ((daysFromCivil 2024 0 10 : ℚ) * MS_PER_DAY + t)
      ((resolvePaydayDate 2024 0 10 25 : ℚ) * MS_PER_DAY) = 20 := by
    rw [hD, hP]
    unfold weeklyExpensesTotal
    simp only [List.foldl_cons, List.foldl_nil]
    unfold weeklyContrib
    rw [show ((19732 : ℤ) : ℚ) = (19732 : ℚ) by norm_num,
      show ((19747 : ℤ) : ℚ) = (19747 : ℚ) by norm_num]
    dsimp only
    rw [hfind]
    dsimp only
    rw [hcnt]
    norm_num
  have hm2 : monthlyExpensesTotal
      ⟨[⟨"rent", some 50, some 20⟩], [⟨"gym", some 10, some 3⟩], [⟨"food", some 2⟩]⟩
      2024 0 10 (resolvePaydayDate 2024 0 10 25) = 50 := by
    rw [hP]
    unfold monthlyExpensesTotal
    simp only [List.foldl_cons, List.foldl_nil]
    unfold monthlyContrib
    norm_num
    decide
  dsimp only
  rw [hd2, hw2, hm2]
  norm_num

/-- Witness for C3 at clock midnight. -/
theorem C3_worked_example_witness :
    ((0 : ℚ) ≤ 0 ∧ (0 : ℚ) < MS_PER_DAY)
    ∧ (resolvePaydayDate 2024 0 10 25 = daysFromCivil 2024 0 25
      ∧ weekdayOf (daysFromCivil 2024 0 10) = 3
      ∧ dailyExpensesTotal ⟨[], [], [⟨"food", some 2⟩]⟩ 2024 0 10 0 25 = 30
      ∧ weeklyExpensesTotal ⟨[], [⟨"gym", some 10, some 3⟩], []⟩
          ((daysFromCivil 2024 0 10 : ℚ) * MS_PER_DAY + 0)
          ((resolvePaydayDate 2024 0 10 25 : ℚ) * MS_PER_DAY) = 20
      ∧ monthlyExpensesTotal ⟨[⟨"rent", some 50, some 20⟩], [], []⟩ 2024 0 10
          (resolvePaydayDate 2024 0 10 25) = 50
      ∧ calculateExpensesUntilPayday
          ⟨[⟨"rent", some 50, some 20⟩], [⟨"gym", some 10, some 3⟩], [⟨"food", some 2⟩]⟩
          2024 0 10 0 25 = 100) :=
  ⟨⟨le_refl 0, MS_PER_DAY_pos⟩, C3_worked_example 0 (le_refl 0) MS_PER_DAY_pos⟩

end Budget

namespace Budget

/-- C6: the monthly rule.  For any monthly record, the candidate date is
`dayOfMonth` of the current month, rolled one month forward exactly when
`dayOfMonth <= today.day` (per record, for an arbitrary `payDayDate`
rather than anything tied to the payday roll), and the record contributes
its full amount exactly when the candidate is strictly before
`payDayDate`.  In particular a record with `dayOfMonth = today.day` rolls
to the next month. -/
theorem C6_monthly_rule (y m d payDayDate : ℤ) (e : MonthlyExpense)
    (hm0 : 0 ≤ m) (hm : m < 12) (hd : d ≤ daysInMonth y m)
    (hdom : 1 ≤ e.day.getD 1) :
    monthlyContrib y m d payDayDate e
      = (if specMonthlyCandidate y m d (e.day.getD 1) < payDayDate then e.amount.getD 0 else 0)
    ∧ (e.day.getD 1 = d → specMonthlyCandidate y m d (e.day.getD 1) = mkDate y (m + 1) d) := by
  constructor
  · unfold monthlyContrib specMonthlyCandidate
    dsimp only
    by_cases hroll : e.day.getD 1 ≤ d
    · rw [if_pos hroll, if_pos hroll,
        setMonthPlus1_mkDate y m (e.day.getD 1) hm0 hm hdom (le_trans hroll hd)]
    · rw [if_neg hroll, if_neg hroll]
  · intro heq
    unfold specMonthlyCandidate
    rw [heq, if_pos (le_refl d)]

set_option maxRecDepth 8000 in
/-- Witness for C6: on 2024-01-10, a monthly record with day-of-month 10
(equal to today's day) rolls to 2024-02-10 and, with payday 2024-01-25, is
excluded. -/
theorem C6_monthly_rule_witness :
    ((0 : ℤ) ≤ 0 ∧ (0 : ℤ) < 12 ∧ (10 : ℤ) ≤ daysInMonth 2024 0
      ∧ (1 : ℤ) ≤ (Option.getD (some (10 : ℤ)) 1))
    ∧ (monthlyContrib 2024 0 10 19747 ⟨"rent", some 50, some 10⟩
        = (if specMonthlyCandidate 2024 0 10 ((some (10 : ℤ)).getD 1) < 19747
            then (some (50 : ℚ)).getD 0 else 0)
      ∧ ((some (10 : ℤ)).getD 1 = 10 →
          specMonthlyCandidate 2024 0 10 ((some (10 : ℤ)).getD 1) = mkDate 2024 (0 + 1) 10)) :=
  ⟨⟨le_refl 0, by norm_num, by decide, by norm_num⟩,
   C6_monthly_rule 2024 0 10 19747 ⟨"rent", some 50, some 10⟩
     (by norm_num) (by norm_num) (by decide) (by norm_num)⟩

end Budget

namespace Budget

/-- C5: the weekly rule.  For a weekly record whose day select holds
`target`, the search finds the first day `F` strictly after today whose
weekday is `target`; the contribution is the amount times the occurrence
count, which counts exactly the dates `F`, `F+7`, `F+14`, ... strictly
before the payday `P`; over a window with `P = F + 7` the count is exactly
1; and a record with a blank day select contributes 0. -/
theorem C5_weekly_rule (todayD P target : ℤ) (t : ℚ) (e : WeeklyExpense)
    (h0 : 0 ≤ t) (h1 : t < MS_PER_DAY) (htar0 : 0 ≤ target) (htar7 : target < 7) :
    (e.day = some target →
      ∃ F : ℤ, todayD < F ∧ F ≤ todayD + 7 ∧ weekdayOf F = target
        ∧ (∀ z : ℤ, todayD < z → z < F → weekdayOf z ≠ target)
        ∧ findNextOccurrence ((todayD : ℚ) * MS_PER_DAY + t) target 8
            ((todayD : ℚ) * MS_PER_DAY + t) = some ((F : ℚ) * MS_PER_DAY + t)
        ∧ weeklyContrib ((todayD : ℚ) * MS_PER_DAY + t) ((P : ℚ) * MS_PER_DAY) e
            = e.amount.getD 0
              * (countOccurrences ((P : ℚ) * MS_PER_DAY) ((F : ℚ) * MS_PER_DAY + t) : ℚ)
        ∧ (∀ j : ℕ, j < countOccurrences ((P : ℚ) * MS_PER_DAY) ((F : ℚ) * MS_PER_DAY + t)
            ↔ F + 7 * (j : ℤ) < P)
        ∧ (P = F + 7 →
            countOccurrences ((P : ℚ) * MS_PER_DAY) ((F : ℚ) * MS_PER_DAY + t) = 1))
    ∧ (e.day = none →
        weeklyContrib ((todayD : ℚ) * MS_PER_DAY + t) ((P : ℚ) * MS_PER_DAY) e = 0) := by
  have hstep : ∀ j : ℕ, ((todayD : ℚ) * MS_PER_DAY + t) + (j : ℚ) * MS_PER_DAY
      = (((todayD + j : ℤ) : ℚ) * MS_PER_DAY + t) := by
    intro j
    push_cast
    ring
  constructor
  · intro hsome
    obtain ⟨k, hk1, hk7, hkm, hkmin⟩ :=
      exists_first_weekday ((todayD : ℚ) * MS_PER_DAY + t) target htar0 htar7
    refine ⟨todayD + (k : ℤ), by omega, by omega, ?_, ?_, ?_, ?_, ?_, ?_⟩
    · rw [hstep k, weekdayOfTs_day _ t h0 h1] at hkm
      exact hkm
    · intro z hz1 hz2
      have hj1 : 1 ≤ (z - todayD).toNat := by omega
      have hjk : (z - todayD).toNat < k := by omega
      have := hkmin (z - todayD).toNat hj1 hjk
      rw [hstep, weekdayOfTs_day _ t h0 h1] at this
      rw [show z = todayD + ((z - todayD).toNat : ℤ) by omega]
      exact this
    · have := findNextOccurrence_eq ((todayD : ℚ) * MS_PER_DAY + t) target k hk1 hkm hkmin
        8 0 (by omega) (by omega)
      rw [show ((todayD : ℚ) * MS_PER_DAY + t + ((0 : ℕ) : ℚ) * MS_PER_DAY)
          = ((todayD : ℚ) * MS_PER_DAY + t) by push_cast; ring] at this
      rw [this, hstep k]
    · unfold weeklyContrib
      rw [hsome]
      dsimp only
      have := findNextOccurrence_eq ((todayD : ℚ) * MS_PER_DAY + t) target k hk1 hkm hkmin
        8 0 (by omega) (by omega)
      rw [show ((todayD : ℚ) * MS_PER_DAY + t + ((0 : ℕ) : ℚ) * MS_PER_DAY)
          = ((todayD : ℚ) * MS_PER_DAY + t) by push_cast; ring] at this
      rw [this, hstep k]
    · intro j
      exact countOccurrences_day_iff P (todayD + (k : ℤ)) t h0 h1 j
    · intro hPF
      have ha := countOccurrences_day_iff P (todayD + (k : ℤ)) t h0 h1 0
      have hb := countOccurrences_day_iff P (todayD + (k : ℤ)) t h0 h1 1
      omega
  · intro hnone
    unfold weeklyContrib
    rw [hnone]

/-- Witness for C5 on 2024-01-10 (day 19732, a Wednesday), payday day
19747 (2024-01-25), target weekday 3, at clock midnight. -/
theorem C5_weekly_rule_witness :
    ((0 : ℚ) ≤ 0 ∧ (0 : ℚ) < MS_PER_DAY ∧ (0 : ℤ) ≤ 3 ∧ (3 : ℤ) < 7)
    ∧ (∃ F : ℤ, 19732 < F ∧ F ≤ 19732 + 7 ∧ weekdayOf F = 3
        ∧ (∀ z : ℤ, 19732 < z → z < F → weekdayOf z ≠ 3)
        ∧ findNextOccurrence (((19732 : ℤ) : ℚ) * MS_PER_DAY + 0) 3 8
            (((19732 : ℤ) : ℚ) * MS_PER_DAY + 0) = some ((F : ℚ) * MS_PER_DAY + 0)
        ∧ weeklyContrib (((19732 : ℤ) : ℚ) * MS_PER_DAY + 0) (((19747 : ℤ) : ℚ) * MS_PER_DAY)
            ⟨"gym", some 10, some 3⟩
            = (WeeklyExpense.mk "gym" (some 10) (some 3)).amount.getD 0
              * (countOccurrences (((19747 : ℤ) : ℚ) * MS_PER_DAY) ((F : ℚ) * MS_PER_DAY + 0) : ℚ)
        ∧ (∀ j : ℕ, j < countOccurrences (((19747 : ℤ) : ℚ) * MS_PER_DAY) ((F : ℚ) * MS_PER_DAY + 0)
            ↔ F + 7 * (j : ℤ) < 19747)
        ∧ ((19747 : ℤ) = F + 7 →
            countOccurrences (((19747 : ℤ) : ℚ) * MS_PER_DAY) ((F : ℚ) * MS_PER_DAY + 0) = 1)) :=
  ⟨⟨le_refl 0, MS_PER_DAY_pos, by norm_num, by norm_num⟩,
   (C5_weekly_rule 19732 19747 3 0 ⟨"gym", some 10, some 3⟩
     (le_refl 0) MS_PER_DAY_pos (by norm_num) (by norm_num)).1 rfl⟩

end Budget

namespace Budget

/-- The daily day count does not depend on the clock time-of-day. -/
lemma daysUntilPayday_t_indep (y m d payDay : ℤ) (t t' : ℚ)
    (h0 : 0 ≤ t) (h1 : t < MS_PER_DAY) (h0' : 0 ≤ t') (h1' : t' < MS_PER_DAY) :
    daysUntilPayday y m d t payDay = daysUntilPayday y m d t' payDay := by
  unfold daysUntilPayday
  dsimp only
  rw [ceil_day_diff _ _ t h0 h1, ceil_day_diff _ _ t' h0' h1']

/-- The weekly contribution does not depend on the clock time-of-day. -/
lemma weeklyContrib_t_indep (D P : ℤ) (t t' : ℚ) (e : WeeklyExpense)
    (h0 : 0 ≤ t) (h1 : t < MS_PER_DAY) (h0' : 0 ≤ t') (h1' : t' < MS_PER_DAY) :
    weeklyContrib ((D : ℚ) * MS_PER_DAY + t) ((P : ℚ) * MS_PER_DAY) e
      = weeklyContrib ((D : ℚ) * MS_PER_DAY + t') ((P : ℚ) * MS_PER_DAY) e := by
  have hstep : ∀ (s : ℚ) (j : ℕ), ((D : ℚ) * MS_PER_DAY + s) + (j : ℚ) * MS_PER_DAY
      = (((D + j : ℤ) : ℚ) * MS_PER_DAY + s) := by
    intro s j
    push_cast
    ring
  unfold weeklyContrib
  cases he : e.day with
  | none => rfl
  | some target =>
    dsimp only
    by_cases htar : 0 ≤ target ∧ target < 7
    · obtain ⟨k, hk1, hk7, hkm, hkmin⟩ :=
        exists_first_weekday ((D : ℚ) * MS_PER_DAY + t) target htar.1 htar.2
      -- convert the weekday facts to day-level, time-free form
      rw [hstep t k, weekdayOfTs_day _ t h0 h1] at hkm
      have hkmin' : ∀ j : ℕ, 1 ≤ j → j < k → weekdayOf (D + (j : ℤ)) ≠ target := by
        intro j hj1 hjk
        have := hkmin j hj1 hjk
        rw [hstep t j, weekdayOfTs_day _ t h0 h1] at this
        exact this
      have hfind : ∀ (s : ℚ), 0 ≤ s → s < MS_PER_DAY →
          findNextOccurrence ((D : ℚ) * MS_PER_DAY + s) target 8 ((D : ℚ) * MS_PER_DAY + s)
            = some (((D + k : ℤ) : ℚ) * MS_PER_DAY + s) := by
        intro s hs0 hs1
        have := findNextOccurrence_eq ((D : ℚ) * MS_PER_DAY + s) target k hk1
          (by rw [hstep s k, weekdayOfTs_day _ s hs0 hs1]; exact hkm)
          (by intro j hj1 hjk
              rw [hstep s j, weekdayOfTs_day _ s hs0 hs1]
              exact hkmin' j hj1 hjk)
          8 0 (by omega) (by omega)
        rw [show ((D : ℚ) * MS_PER_DAY + s + ((0 : ℕ) : ℚ) * MS_PER_DAY)
            = ((D : ℚ) * MS_PER_DAY + s) by push_cast; ring] at this
        rw [this, hstep s k]
      rw [hfind t h0 h1, hfind t' h0' h1']
      dsimp only
      have hcount : countOccurrences ((P : ℚ) * MS_PER_DAY) (((D + k : ℤ) : ℚ) * MS_PER_DAY + t)
          = countOccurrences ((P : ℚ) * MS_PER_DAY) (((D + k : ℤ) : ℚ) * MS_PER_DAY + t') := by
        apply count_eq_of_lt_iff
        intro j
        rw [countOccurrences_day_iff P (D + k) t h0 h1 j,
          countOccurrences_day_iff P (D + k) t' h0' h1' j]
      rw [hcount]
    · have hout : target < 0 ∨ 7 ≤ target := by omega
      rw [findNextOccurrence_none _ _ hout, findNextOccurrence_none _ _ hout]

/-- C9: two runs whose `today` values share a calendar date but differ in
clock time-of-day produce the same payday projection. -/
theorem C9_time_of_day_invariance (c : ExpenseCollection) (y m d payDay : ℤ) (t t' : ℚ)
    (h0 : 0 ≤ t) (h1 : t < MS_PER_DAY) (h0' : 0 ≤ t') (h1' : t' < MS_PER_DAY) :
    calculateExpensesUntilPayday c y m d t payDay
      = calculateExpensesUntilPayday c y m d t' payDay := by
  unfold calculateExpensesUntilPayday dailyExpensesTotal weeklyExpensesTotal
  dsimp only
  rw [daysUntilPayday_t_indep y m d payDay t t' h0 h1 h0' h1']
  simp only [weeklyContrib_t_indep (daysFromCivil y m d) (resolvePaydayDate y m d payDay)
    t t' _ h0 h1 h0' h1']

/-- Witness for C9: midnight versus noon on 2024-01-10. -/
theorem C9_time_of_day_invariance_witness :
    ((0 : ℚ) ≤ 0 ∧ (0 : ℚ) < MS_PER_DAY ∧ (0 : ℚ) ≤ 43200000 ∧ (43200000 : ℚ) < MS_PER_DAY)
    ∧ calculateExpensesUntilPayday ⟨[], [⟨"gym", some 10, some 3⟩], [⟨"food", some 2⟩]⟩
        2024 0 10 0 25
      = calculateExpensesUntilPayday ⟨[], [⟨"gym", some 10, some 3⟩], [⟨"food", some 2⟩]⟩
        2024 0 10 43200000 25 :=
  ⟨⟨le_refl 0, MS_PER_DAY_pos, by norm_num, by norm_num [MS_PER_DAY]⟩,
   C9_time_of_day_invariance ⟨[], [⟨"gym", some 10, some 3⟩], [⟨"food", some 2⟩]⟩
     2024 0 10 25 0 43200000 (le_refl 0) MS_PER_DAY_pos (by norm_num) (by norm_num [MS_PER_DAY])⟩

end Budget

namespace Budget

/-- C10: the weekly day-by-day search reaches its target within 7 steps
(fuel 8 returns the match, at most 7 days after the start), and the 7-day
occurrence loop stops within any bound that covers the distance to the
payday. -/
theorem C10_weekly_search_termination (ts payTs : ℚ) (target : ℤ)
    (htar0 : 0 ≤ target) (htar7 : target < 7) :
    (∃ k : ℕ, 1 ≤ k ∧ k ≤ 7
      ∧ findNextOccurrence ts target 8 ts = some (ts + (k : ℚ) * MS_PER_DAY))
    ∧ ∀ (cur : ℚ) (n : ℕ), payTs ≤ cur + (n : ℚ) * (DAYS_IN_WEEK * MS_PER_DAY) →
        countOccurrences payTs cur ≤ n := by
  constructor
  · obtain ⟨k, hk1, hk7, hkm, hkmin⟩ := exists_first_weekday ts target htar0 htar7
    refine ⟨k, hk1, hk7, ?_⟩
    have := findNextOccurrence_eq ts target k hk1 hkm hkmin 8 0 (by omega) (by omega)
    rw [show (ts + ((0 : ℕ) : ℚ) * MS_PER_DAY) = ts by push_cast; ring] at this
    exact this
  · intro cur n hn
    by_contra hc
    push_neg at hc
    have := (countOccurrences_char payTs cur n).mp hc
    linarith

/-- Witness for C10 at the epoch timestamp, target weekday 3. -/
theorem C10_weekly_search_termination_witness :
    ((0 : ℤ) ≤ 3 ∧ (3 : ℤ) < 7)
    ∧ (∃ k : ℕ, 1 ≤ k ∧ k ≤ 7
        ∧ findNextOccurrence 0 3 8 0 = some (0 + (k : ℚ) * MS_PER_DAY))
    ∧ countOccurrences 0 0 ≤ 0 :=
  ⟨⟨by norm_num, by norm_num⟩,
   (C10_weekly_search_termination 0 0 3 (by norm_num) (by norm_num)).1,
   (C10_weekly_search_termination 0 0 3 (by norm_num) (by norm_num)).2 0 0 (by norm_num)⟩

/-- Dropping list elements on which the summand vanishes keeps the sum. -/
lemma sum_map_filter_of_zero (p : α → Bool) (f : α → ℚ) (l : List α)
    (h : ∀ e ∈ l, p e = false → f e = 0) :
    ((l.filter p).map f).sum = (l.map f).sum := by
  induction l with
  | nil => rfl
  | cons a l ih =>
    rw [List.filter_cons]
    by_cases hp : p a
    · rw [if_pos hp]
      simp only [List.map_cons, List.sum_cons]
      rw [ih (fun e he hf => h e (List.mem_cons_of_mem a he) hf)]
    · rw [if_neg hp]
      simp only [List.map_cons, List.sum_cons]
      rw [ih (fun e he hf => h e (List.mem_cons_of_mem a he) hf)]
      rw [h a (List.mem_cons_self a l) (by simpa using hp)]
      ring

/-- A weekly record with a blank day select contributes nothing. -/
lemma weeklyContrib_none (ts pts : ℚ) (e : WeeklyExpense) (he : e.day = none) :
    weeklyContrib ts pts e = 0 := by
  unfold weeklyContrib
  rw [he]

/-- C8: total error absence.  The weekly search always succeeds for a
genuine weekday target (the model never hits its fuel bound, so the JS
loop terminates rather than faulting), and every blank or unparseable
field degrades to its default: replacing blank amounts by 0, blank
monthly day selects by 1 and dropping blank-day weekly records changes
neither the payday projection nor the monthly total. -/
theorem C8_total_error_absence (c : ExpenseCollection) (y m d payDay : ℤ) (t : ℚ) :
    (∀ target : ℤ, 0 ≤ target → target < 7 →
      (findNextOccurrence ((daysFromCivil y m d : ℚ) * MS_PER_DAY + t) target 8
        ((daysFromCivil y m d : ℚ) * MS_PER_DAY + t)).isSome = true)
    ∧ calculateExpensesUntilPayday (sanitize c) y m d t payDay
        = calculateExpensesUntilPayday c y m d t payDay
    ∧ computeMonthlyTotal (fillAmounts c) = computeMonthlyTotal c := by
  refine ⟨?_, ?_, ?_⟩
  · intro target htar0 htar7
    obtain ⟨k, hk1, hk7, hkm, hkmin⟩ :=
      exists_first_weekday ((daysFromCivil y m d : ℚ) * MS_PER_DAY + t) target htar0 htar7
    have := findNextOccurrence_eq ((daysFromCivil y m d : ℚ) * MS_PER_DAY + t) target k hk1
      hkm hkmin 8 0 (by omega) (by omega)
    rw [show ((daysFromCivil y m d : ℚ) * MS_PER_DAY + t + ((0 : ℕ) : ℚ) * MS_PER_DAY)
        = ((daysFromCivil y m d : ℚ) * MS_PER_DAY + t) by push_cast; ring] at this
    rw [this]
    rfl
  · have hdaily : dailyExpensesTotal (sanitize c) y m d t payDay
        = dailyExpensesTotal c y m d t payDay := by
      unfold dailyExpensesTotal sanitize
      dsimp only
      rw [foldl_add_map, foldl_add_map, List.map_map]
      simp only [Function.comp_def, Option.getD_some]
    have hweekly : ∀ ts pts : ℚ, weeklyExpensesTotal (sanitize c) ts pts
        = weeklyExpensesTotal c ts pts := by
      intro ts pts
      unfold weeklyExpensesTotal sanitize
      dsimp only
      rw [foldl_add_map, foldl_add_map, List.map_map]
      have hfun : ∀ e : WeeklyExpense,
          weeklyContrib ts pts ⟨e.name, some (e.amount.getD 0), e.day⟩
            = weeklyContrib ts pts e := by
        intro e
        unfold weeklyContrib
        cases e.day <;> rfl
      simp only [Function.comp_def, hfun]
      rw [sum_map_filter_of_zero]
      intro e _ hf
      exact weeklyContrib_none ts pts e (by simpa [Option.isSome_iff_exists] using hf)
    have hmonthly : ∀ P : ℤ, monthlyExpensesTotal (sanitize c) y m d P
        = monthlyExpensesTotal c y m d P := by
      intro P
      unfold monthlyExpensesTotal sanitize
      dsimp only
      rw [foldl_add_map, foldl_add_map, List.map_map]
      have hfun : ∀ e : MonthlyExpense,
          monthlyContrib y m d P ⟨e.name, some (e.amount.getD 0), some (e.day.getD 1)⟩
            = monthlyContrib y m d P e := by
        intro e
        unfold monthlyContrib
        dsimp only [Option.getD_some]
      simp only [Function.comp_def, hfun]
    unfold calculateExpensesUntilPayday
    dsimp only
    rw [hdaily, hweekly, hmonthly]
  · rw [computeMonthlyTotal_eq_sums, computeMonthlyTotal_eq_sums]
    unfold fillAmounts
    dsimp only
    simp only [List.map_map, Function.comp_def, Option.getD_some]

/-- Witness for C8 on a collection with blank fields, weekday target 3. -/
theorem C8_total_error_absence_witness :
    (findNextOccurrence ((daysFromCivil 2024 0 10 : ℚ) * MS_PER_DAY + 0) 3 8
        ((daysFromCivil 2024 0 10 : ℚ) * MS_PER_DAY + 0)).isSome = true
    ∧ calculateExpensesUntilPayday
        (sanitize ⟨[⟨"rent", none, none⟩], [⟨"gym", some 10, none⟩], [⟨"food", none⟩]⟩)
        2024 0 10 0 25
      = calculateExpensesUntilPayday
        ⟨[⟨"rent", none, none⟩], [⟨"gym", some 10, none⟩], [⟨"food", none⟩]⟩ 2024 0 10 0 25
    ∧ computeMonthlyTotal
        (fillAmounts ⟨[⟨"rent", none, none⟩], [⟨"gym", some 10, none⟩], [⟨"food", none⟩]⟩)
      = computeMonthlyTotal ⟨[⟨"rent", none, none⟩], [⟨"gym", some 10, none⟩], [⟨"food", none⟩]⟩ :=
  ⟨(C8_total_error_absence ⟨[⟨"rent", none, none⟩], [⟨"gym", some 10, none⟩], [⟨"food", none⟩]⟩
      2024 0 10 25 0).1 3 (by norm_num) (by norm_num),
   (C8_total_error_absence ⟨[⟨"rent", none, none⟩], [⟨"gym", some 10, none⟩], [⟨"food", none⟩]⟩
      2024 0 10 25 0).2.1,
   (C8_total_error_absence ⟨[⟨"rent", none, none⟩], [⟨"gym", some 10, none⟩], [⟨"food", none⟩]⟩
      2024 0 10 25 0).2.2⟩

end Budget
